import Mathlib

/-!
Verification of the hotkey registry and capture subsystem of
create_rule_admin_gui_simple.py (GTA-online-Solo-Public-Lobby).

The Python source is shallowly embedded below:
pure helpers (parse_hotkey_string, hotkey_to_string, commit_capture) become
Lean functions; the hotkey thread is modelled as explicit state passing over
a RegState (the registered_ids list of the thread plus the OS hotkey table
visible to this thread through RegisterHotKey / UnregisterHotKey); the
capture dialog poll callback becomes a step function over CapState folded
over a list of key-state samples; the blocking GetMessageW call is modelled
by a result datatype.

Strings are processed through structural-recursion helpers over List Char
(the library String functions are well-founded-recursive and do not reduce
in the kernel).  Python str.upper / str.lower / str.strip / str.isdigit are
modelled with their ASCII semantics, which agree with Python on every
modifier name, named key and key token the claims touch.
-/

/-! ### Character and string helpers (Python string methods, ASCII range) -/

/-- Python str.split on a plus sign: n separators give n+1 pieces. -/
def splitPlus : List Char → List (List Char)
  | [] => [[]]
  | c :: cs =>
    if c == '+' then [] :: splitPlus cs
    else
      match splitPlus cs with
      | [] => [[c]]
      | t :: ts => (c :: t) :: ts

/-- Python str.strip: drop whitespace from both ends. -/
def stripStr (l : List Char) : List Char :=
  ((l.dropWhile Char.isWhitespace).reverse.dropWhile Char.isWhitespace).reverse

/-- Python str.lower, ASCII range. -/
def lowerStr (l : List Char) : List Char := l.map Char.toLower

/-- Python str.upper, ASCII range. -/
def upperStr (l : List Char) : List Char := l.map Char.toUpper

/-- Python str.isdigit: false on the empty string, else all digits. -/
def isDigitStr (t : List Char) : Bool := (t != []) && t.all (fun c => c.isDigit)

/-- Python int() on a digit string. -/
def digitsToNat (t : List Char) : Nat := t.foldl (fun n c => 10 * n + (c.toNat - 48)) 0

/-- Python str.join with a plus-sign separator. -/
def joinPlus : List (List Char) → List Char
  | [] => []
  | [x] => x
  | x :: xs => x ++ '+' :: joinPlus xs

/-! ### Constants from the source (lines 215-234, 237, 270-275) -/

def MOD_ALT : Nat := 0x0001
def MOD_CONTROL : Nat := 0x0002
def MOD_SHIFT : Nat := 0x0004
def MOD_WIN : Nat := 0x0008
def WM_HOTKEY : Nat := 0x0312

/-- Hotkey action IDs (source line 221): dict from action name to stable id. -/
def ACTION_IDS : List (String × Nat) :=
  [("create", 1), ("toggle", 2), ("delete", 3), ("suspend_enh", 4)]

/-- ACTION_IDS.get(action) (source line 469). -/
def actionIdOf (a : String) : Option Nat := ACTION_IDS.lookup a

/-- NAMED_VK table (source lines 270-275): vk code to display name. -/
def NAMED_VK : List (Nat × String) :=
  [(0x20, "Space"), (0x09, "Tab"), (0x0D, "Enter"), (0x1B, "Esc"),
   (0x26, "Up"), (0x28, "Down"), (0x25, "Left"), (0x27, "Right"),
   (0x2D, "Ins"), (0x2E, "Del"), (0x24, "Home"), (0x23, "End"),
   (0x21, "PageUp"), (0x22, "PageDown")]

/-! ### Binding codec (source lines 358-420) -/

/-- The named-key parse table local to parse_hotkey_string (lines 389-394). -/
def namedKeyTable : List (String × Nat) :=
  [("space", 0x20), ("tab", 0x09), ("enter", 0x0D), ("return", 0x0D),
   ("esc", 0x1B), ("escape", 0x1B), ("up", 0x26), ("down", 0x28),
   ("left", 0x25), ("right", 0x27), ("ins", 0x2D), ("del", 0x2E),
   ("home", 0x24), ("end", 0x23), ("pageup", 0x21), ("pagedown", 0x22)]

/-- The for-loop of parse_hotkey_string (lines 365-376): accumulate the
modifier mask; every token that matches no modifier alias overwrites the
pending key, so the last non-modifier token wins. -/
def parseParts : List (List Char) → Nat → Option (List Char) → Nat × Option (List Char)
  | [], mods, key => (mods, key)
  | p :: rest, mods, key =>
    let pp := lowerStr p
    if pp == ("ctrl").data || pp == ("control").data then
      parseParts rest (mods ||| MOD_CONTROL) key
    else if pp == ("alt").data then
      parseParts rest (mods ||| MOD_ALT) key
    else if pp == ("shift").data then
      parseParts rest (mods ||| MOD_SHIFT) key
    else if pp == ("win").data || pp == ("windows").data then
      parseParts rest (mods ||| MOD_WIN) key
    else
      parseParts rest mods (some p)

/-- Key-token resolution of parse_hotkey_string (lines 379-398): function
keys F1-F24, then single characters via ord(key.upper()), then the named
table, else a ValueError (modelled as Except.error carrying str(e)). -/
def parseKey (key : List Char) : Except String Nat :=
  if (upperStr key).headI == 'F' && isDigitStr (key.drop 1) then
    let n := digitsToNat (key.drop 1)
    if 1 ≤ n ∧ n ≤ 24 then Except.ok (0x70 + (n - 1))
    else Except.error ("Invalid function key")
  else if key.length == 1 then
    Except.ok (upperStr key).headI.toNat
  else
    match namedKeyTable.lookup (String.mk (lowerStr key)) with
    | some vk => Except.ok vk
    | none => Except.error ("Unknown key name: " ++ String.mk key)

/-- parse_hotkey_string (source lines 358-399).  Returns (mods, vk) or the
message of the ValueError the Python code raises. -/
def parse_hotkey_string (s : String) : Except String (Nat × Nat) :=
  let t := stripStr s.data
  if t == [] then Except.error ("Empty hotkey")
  else
    let parts := ((splitPlus t).map stripStr).filter (fun p => p != [])
    let mk := parseParts parts 0 none
    match mk.2 with
    | none => Except.error ("No key specified")
    | some key =>
      match parseKey key with
      | Except.ok vk => Except.ok (mk.1, vk)
      | Except.error e => Except.error e

/-- Key rendering of hotkey_to_string (lines 411-419): NAMED_VK first, then
F-keys, else chr(vk).upper(). -/
def vkName (vk : Nat) : List Char :=
  match NAMED_VK.lookup vk with
  | some n => n.data
  | none =>
    if 0x70 ≤ vk ∧ vk ≤ 0x87 then 'F' :: (toString (vk - 0x6F)).data
    else [(Char.ofNat vk).toUpper]

/-- hotkey_to_string (source lines 401-420): modifiers in the fixed order
Ctrl, Alt, Shift, Win, then the key, joined with a plus sign. -/
def hotkey_to_string (mods vk : Nat) : String :=
  let parts :=
    (if mods &&& MOD_CONTROL ≠ 0 then [("Ctrl").data] else []) ++
    (if mods &&& MOD_ALT ≠ 0 then [("Alt").data] else []) ++
    (if mods &&& MOD_SHIFT ≠ 0 then [("Shift").data] else []) ++
    (if mods &&& MOD_WIN ≠ 0 then [("Win").data] else []) ++
    [vkName vk]
  String.mk (joinPlus parts)

/-- True when parseParts treats the token as a modifier alias
(the first four branches of the loop, lines 366-374). -/
def isModToken (p : List Char) : Bool :=
  let pp := lowerStr p
  pp == ("ctrl").data || pp == ("control").data || pp == ("alt").data ||
    pp == ("shift").data || pp == ("win").data || pp == ("windows").data

deriving instance DecidableEq for Except


/-! ### Hotkey Registry thread (source lines 423-548)

The thread-local list registered_ids together with the hotkeys this thread
currently holds with the OS.  RegisterHotKey(None, aid, mods, vk) adds
(aid, mods, vk) to the OS table when the OS accepts the call;
UnregisterHotKey(None, aid) removes every entry with that id.  Whether the
OS accepts a RegisterHotKey call (e.g. the combo may already be owned by
another process) is abstracted by an acceptance oracle passed alongside
each register command. -/

structure RegState where
  registeredIds : List Nat
  osHotkeys : List (Nat × Nat × Nat)
deriving DecidableEq

/-- The thread starts with no registrations (source line 430). -/
def initRegState : RegState := ⟨[], []⟩

/-- Unregister every id in registered_ids and clear the list: the loop at
source lines 461-466 (before a register), 486-491 (rollback) and 499-504
(stop). -/
def unregisterAll (s : RegState) : RegState :=
  ⟨[], s.osHotkeys.filter (fun e => !(decide (e.1 ∈ s.registeredIds)))⟩

/-- Responses placed on a command response-slot queue: ("ok",),
("failed", action, msg) and ("stopped",). -/
inductive RegResp where
  | ok
  | failed (action msg : String)
  | stopped
deriving DecidableEq

/-- The for-loop over hotmap.items() at source lines 468-483: resolve the
action id, parse the combo, call RegisterHotKey; stop at the first failure,
appending each accepted id to registered_ids. -/
def registerLoop (accept : Nat → Nat → Nat → Bool) :
    List (String × String) → RegState → RegState × Option (String × String)
  | [], s => (s, none)
  | (action, hk) :: rest, s =>
    match actionIdOf action with
    | none => (s, some (action, "Unknown action id"))
    | some aid =>
      match parse_hotkey_string hk with
      | Except.error e => (s, some (action, e))
      | Except.ok (mods, vk) =>
        if accept aid mods vk then
          registerLoop accept rest
            ⟨s.registeredIds ++ [aid], s.osHotkeys ++ [(aid, mods, vk)]⟩
        else (s, some (action, "RegisterHotKey failed for " ++ hk))

/-- Processing of a ("register", hotmap, resp_q) command (source lines
457-496): unregister the previous set, run the loop, and on failure roll
back everything registered during this call.  The returned RegResp is what
is put on the response slot. -/
def processRegister (accept : Nat → Nat → Nat → Bool)
    (hotmap : List (String × String)) (s : RegState) : RegState × RegResp :=
  let s0 := unregisterAll s
  let res := registerLoop accept hotmap s0
  match res.2 with
  | some f => (unregisterAll res.1, RegResp.failed f.1 f.2)
  | none => (res.1, RegResp.ok)

/-- An entry of the binding map makes the register loop fail exactly when
its action is unknown, its combo does not parse, or the OS rejects the
RegisterHotKey call. -/
def entryFails (accept : Nat → Nat → Nat → Bool) (e : String × String) : Bool :=
  match actionIdOf e.1 with
  | none => true
  | some aid =>
    match parse_hotkey_string e.2 with
    | Except.error _ => true
    | Except.ok (mods, vk) => !accept aid mods vk

/-- The (id, mods, vk) triple an entry of the binding map registers when
everything succeeds. -/
def resolveEntry (e : String × String) : Option (Nat × Nat × Nat) :=
  match actionIdOf e.1, parse_hotkey_string e.2 with
  | some aid, Except.ok (mods, vk) => some (aid, mods, vk)
  | _, _ => none

/-- Commands drained from cmd_queue; the acceptance oracle of a register
command abstracts the OS verdict on each RegisterHotKey call. -/
inductive HkCmd where
  | register (accept : Nat → Nat → Nat → Bool) (hotmap : List (String × String))
  | stop

/-- The inner drain loop at source lines 449-513: process queued commands in
order; a ("stop", resp) command unregisters everything, answers ("stopped",)
and returns from the thread function, leaving later commands unprocessed.
Result: final state, the responses produced in order, and whether the
thread terminated. -/
def drainCmds : List HkCmd → RegState → RegState × List RegResp × Bool
  | [], s => (s, [], false)
  | HkCmd.register a m :: rest, s =>
    let pr := processRegister a m s
    let dr := drainCmds rest pr.1
    (dr.1, pr.2 :: dr.2.1, dr.2.2)
  | HkCmd.stop :: _, s => (unregisterAll s, [RegResp.stopped], true)

/-! ### Event queue and the blocking message loop (source lines 516-548,
783-810) -/

/-- Items the hotkey thread puts on event_queue: ("hotkey", id) or
("error", message). -/
inductive HkEvent where
  | hotkey (id : Nat)
  | error (msg : String)
deriving DecidableEq

/-- Outcome of the blocking user32.GetMessageW call (source line 516):
0 means WM_QUIT, -1 means an error, anything else delivers a message. -/
inductive GetMsgResult where
  | quit
  | err
  | message (msg : Nat) (wParam : Nat)

/-- Handling of one GetMessageW result (source lines 516-535): the events
put on event_queue, and whether the loop is exited.  On res = -1 the code
enqueues an ("error", ...) event and executes continue, so the loop is NOT
exited; only res = 0 (WM_QUIT) breaks out of it. -/
def handleGetMessage : GetMsgResult → List HkEvent × Bool
  | GetMsgResult.quit => ([], true)
  | GetMsgResult.err => ([HkEvent.error ("GetMessageW returned -1 in hotkey thread")], false)
  | GetMsgResult.message m w =>
    ((if m = WM_HOTKEY then [HkEvent.hotkey w] else []), false)

/-- App.check_queue handling of one event_queue item (source lines 786-807):
returns the action id dispatched to handle_hotkey, if any.  A ("hotkey", id)
item is dropped whenever RECORDING_PAUSE_HOTKEYS is set. -/
def handleQueueItem (recordingPause : Bool) (e : HkEvent) : Option Nat :=
  match e with
  | HkEvent.hotkey id => if recordingPause then none else some id
  | HkEvent.error _ => none

/-- One App.check_queue pass draining event_q: the list of dispatched
action ids. -/
def check_queue (recordingPause : Bool) (events : List HkEvent) : List Nat :=
  events.filterMap (handleQueueItem recordingPause)

/-- Modelled from the spec: the code that opens a capture session and sets
the shared suppression flag is the HotkeysDialog class, which the source
elides (line 984, "(HotkeysDialog and the rest remain unchanged)").  Per
the spec, "for the duration of a session, a shared suppression flag must be
set so that the Controller drops any Fired events arriving from the Hotkey
Registry": this constant is the value RECORDING_PAUSE_HOTKEYS.is_set()
returns at any instant while a capture session is open. -/
def recordingFlagDuringSession : Bool := true

/-! ### Combo Recorder (capture_hotkey_dialog, source lines 555-679) -/

/-- One 50 ms poll sample of the live key state read through
GetAsyncKeyState: the modifier mask assembled at lines 623-631 and the
non-modifier virtual keys currently down (scan at lines 633-638, in scan
order, modifier keys excluded). -/
structure CapSample where
  mods : Nat
  keys : List Nat
deriving DecidableEq

/-- The dialog-local capture state: the committed combo strings, the
per-cycle tracking fields of the state dict (lines 577-582) and the
prev_non_mod set (line 599). -/
structure CapState where
  captures : List String
  lastVk : Option Nat
  lastMods : Nat
  pressedNonMod : Bool
  prevNonMod : List Nat
deriving DecidableEq

def initCapState : CapState := ⟨[], none, 0, false, []⟩

/-- commit_capture (source lines 601-613): append the rendered combo unless
it equals the immediately preceding committed combo. -/
def commit_capture (captures : List String) (vk mods : Nat) : List String :=
  let hk := hotkey_to_string mods vk
  if captures = [] ∨ captures.getLast? ≠ some hk then captures ++ [hk] else captures

/-- One iteration of the poll callback (source lines 615-673), sampling a
CapSample.  A press start (non-modifier keys appear while prev_non_mod was
empty) records the first detected key and the modifier mask of this sample;
a release (all non-modifier keys gone) commits the recorded key with the
recorded mask, guarded by the Python truthiness test on pressed_non_mod and
last_non_mod_vk; otherwise only the display changes.  prev_non_mod is set
to the current scan at the end of every iteration. -/
def pollStep (s : CapState) (samp : CapSample) : CapState :=
  if samp.keys ≠ [] ∧ s.prevNonMod = [] then
    { s with lastVk := samp.keys.head?, lastMods := samp.mods,
             pressedNonMod := true, prevNonMod := samp.keys }
  else if samp.keys = [] ∧ s.prevNonMod ≠ [] then
    let caps :=
      match s.lastVk with
      | some v =>
        if s.pressedNonMod ∧ v ≠ 0 then commit_capture s.captures v s.lastMods
        else s.captures
      | none => s.captures
    ⟨caps, none, s.lastMods, false, samp.keys⟩
  else
    { s with prevNonMod := samp.keys }

/-- The poll loop over the samples observed until the dialog closes
(Save, Cancel or timeout merely stop the sampling; none of them touches
the committed list). -/
def runCapture (samples : List CapSample) : CapState :=
  samples.foldl pollStep initCapState

/-- The return value of capture_hotkey_dialog (source line 679):
literally, return captures if captures else None. -/
def capture_hotkey_dialog (samples : List CapSample) : Option (List String) :=
  let caps := (runCapture samples).captures
  if caps = [] then none else some caps

/-- The key codes on which the parse-format round trip is exact: the named
keys, the function keys F1-F24, the ASCII digits and the uppercase letters
(every code whose rendered form re-parses to the same code). -/
def goodKeyCodes : List Nat :=
  (NAMED_VK.map (fun e => e.1)) ++ ((List.range 24).map (fun i => 0x70 + i)) ++
    ((List.range 10).map (fun i => 0x30 + i)) ++ ((List.range 26).map (fun i => 0x41 + i))

/-! ### Helper lemmas about the Registry state machine -/

/-- If every OS entry id is tracked in ids, the unregister filter removes
everything. -/
theorem filter_untracked_nil (os : List (Nat × Nat × Nat)) (ids : List Nat)
    (h : ∀ x ∈ os, x.1 ∈ ids) :
    os.filter (fun e => !(decide (e.1 ∈ ids))) = [] := by
  induction os with
  | nil => rfl
  | cons a l ih =>
    have ha := h a (List.mem_cons_self a l)
    have hrest := ih (fun x hx => h x (List.mem_cons_of_mem a hx))
    simp [List.filter_cons, ha, hrest]

/-- Unregistering from a state whose OS entries are all tracked empties it. -/
theorem unregisterAll_of_inv (s : RegState)
    (h : ∀ x ∈ s.osHotkeys, x.1 ∈ s.registeredIds) :
    unregisterAll s = initRegState := by
  unfold unregisterAll initRegState
  rw [filter_untracked_nil s.osHotkeys s.registeredIds h]

/-- When no entry of the map fails, the register loop appends exactly the
resolved (id, mods, vk) triples of the map, in order, and reports no
failure. -/
theorem registerLoop_of_find_eq_none (accept : Nat → Nat → Nat → Bool) :
    ∀ (l : List (String × String)) (s : RegState),
      l.find? (entryFails accept) = none →
      registerLoop accept l s =
        (⟨s.registeredIds ++ (l.filterMap resolveEntry).map (fun x => x.1),
          s.osHotkeys ++ l.filterMap resolveEntry⟩, none) := by
  intro l
  induction l with
  | nil => intro s _; simp [registerLoop]
  | cons hd tl ih =>
    intro s h
    obtain ⟨a, hk⟩ := hd
    rw [List.find?_cons] at h
    cases hfa : entryFails accept (a, hk) with
    | true => rw [hfa] at h; simp at h
    | false =>
      rw [hfa] at h
      cases hact : actionIdOf a with
      | none => simp [entryFails, hact] at hfa
      | some aid =>
        cases hparse : parse_hotkey_string hk with
        | error e => simp [entryFails, hact, hparse] at hfa
        | ok mv =>
          obtain ⟨mods, vk⟩ := mv
          have hacc : accept aid mods vk = true := by
            simpa [entryFails, hact, hparse] using hfa
          simp only [registerLoop, hact, hparse, hacc, if_true]
          rw [ih _ h]
          simp [resolveEntry, hact, hparse, List.filterMap_cons]

/-- When some entry fails, the loop stops at the first failing entry (in
map iteration order), having appended only the triples accepted before it,
and reports that entry and a reason. -/
theorem registerLoop_of_find_eq_some (accept : Nat → Nat → Nat → Bool) :
    ∀ (l : List (String × String)) (s : RegState) (e : String × String),
      l.find? (entryFails accept) = some e →
      ∃ p msg, registerLoop accept l s =
        (⟨s.registeredIds ++ p.map (fun x => x.1), s.osHotkeys ++ p⟩,
         some (e.1, msg)) := by
  intro l
  induction l with
  | nil => intro s e h; simp [List.find?] at h
  | cons hd tl ih =>
    intro s e h
    obtain ⟨a, hk⟩ := hd
    rw [List.find?_cons] at h
    cases hfa : entryFails accept (a, hk) with
    | true =>
      rw [hfa] at h
      have he : e = (a, hk) := by
        have := h; simp at this; exact this.symm
      subst he
      cases hact : actionIdOf a with
      | none => exact ⟨[], "Unknown action id", by simp [registerLoop, hact]⟩
      | some aid =>
        cases hparse : parse_hotkey_string hk with
        | error em => exact ⟨[], em, by simp [registerLoop, hact, hparse]⟩
        | ok mv =>
          obtain ⟨mods, vk⟩ := mv
          have hacc : accept aid mods vk = false := by
            simpa [entryFails, hact, hparse] using hfa
          exact ⟨[], "RegisterHotKey failed for " ++ hk,
            by simp [registerLoop, hact, hparse, hacc]⟩
    | false =>
      rw [hfa] at h
      cases hact : actionIdOf a with
      | none => simp [entryFails, hact] at hfa
      | some aid =>
        cases hparse : parse_hotkey_string hk with
        | error em => simp [entryFails, hact, hparse] at hfa
        | ok mv =>
          obtain ⟨mods, vk⟩ := mv
          have hacc : accept aid mods vk = true := by
            simpa [entryFails, hact, hparse] using hfa
          obtain ⟨p, msg, hp⟩ :=
            ih ⟨s.registeredIds ++ [aid], s.osHotkeys ++ [(aid, mods, vk)]⟩ e h
          refine ⟨(aid, mods, vk) :: p, msg, ?_⟩
          simp only [registerLoop, hact, hparse, hacc, if_true]
          rw [hp]
          simp

/-- Complete case analysis of one register command from a consistent state:
either no entry fails and the state becomes exactly the resolved map, or the
first failing entry (in map iteration order) is reported and the state is
emptied. -/
theorem processRegister_cases (accept : Nat → Nat → Nat → Bool)
    (m : List (String × String)) (s : RegState)
    (hinv : ∀ x ∈ s.osHotkeys, x.1 ∈ s.registeredIds) :
    (m.find? (entryFails accept) = none ∧
      processRegister accept m s =
        (⟨(m.filterMap resolveEntry).map (fun x => x.1), m.filterMap resolveEntry⟩,
         RegResp.ok)) ∨
    (∃ e msg, m.find? (entryFails accept) = some e ∧
      processRegister accept m s = (⟨[], []⟩, RegResp.failed e.1 msg)) := by
  have h0 : unregisterAll s = initRegState := unregisterAll_of_inv s hinv
  cases hfind : m.find? (entryFails accept) with
  | none =>
    left
    refine ⟨rfl, ?_⟩
    simp only [processRegister]
    rw [h0, registerLoop_of_find_eq_none accept m initRegState hfind]
    simp [initRegState]
  | some e =>
    right
    obtain ⟨p, msg, hp⟩ := registerLoop_of_find_eq_some accept m initRegState e hfind
    refine ⟨e, msg, rfl, ?_⟩
    simp only [processRegister]
    rw [h0, hp]
    have hip : ∀ x ∈ p, x.1 ∈ p.map (fun y => y.1) :=
      fun x hx => List.mem_map_of_mem (fun y => y.1) hx
    have : unregisterAll ⟨p.map (fun y => y.1), p⟩ = initRegState :=
      unregisterAll_of_inv ⟨p.map (fun y => y.1), p⟩ hip
    simp only [initRegState] at this ⊢
    simp [this]

/-- Register commands keep the Registry state consistent (every OS entry id
is tracked in registered_ids). -/
theorem processRegister_inv (accept : Nat → Nat → Nat → Bool)
    (m : List (String × String)) (s : RegState)
    (hinv : ∀ x ∈ s.osHotkeys, x.1 ∈ s.registeredIds) :
    ∀ x ∈ (processRegister accept m s).1.osHotkeys,
      x.1 ∈ (processRegister accept m s).1.registeredIds := by
  rcases processRegister_cases accept m s hinv with ⟨_, heq⟩ | ⟨e, msg, _, heq⟩ <;>
    rw [heq] <;> intro x hx
  · exact List.mem_map_of_mem (fun y => y.1) hx
  · simp at hx

/-! ### Helper lemmas about the capture poll loop and the parse loop -/

/-- A poll iteration that is not a release transition leaves the committed
list untouched. -/
theorem pollStep_captures_of_not_release (s : CapState) (samp : CapSample)
    (h : ¬(samp.keys = [] ∧ s.prevNonMod ≠ [])) :
    (pollStep s samp).captures = s.captures := by
  unfold pollStep
  by_cases h1 : samp.keys ≠ [] ∧ s.prevNonMod = []
  · rw [if_pos h1]
  · rw [if_neg h1, if_neg h]

/-- While at least one non-modifier key stays down in every sample, no poll
iteration can commit anything. -/
theorem foldl_captures_of_keys_down :
    ∀ (samples : List CapSample) (s : CapState),
      (∀ x ∈ samples, x.keys ≠ []) →
      (samples.foldl pollStep s).captures = s.captures := by
  intro samples
  induction samples with
  | nil => intro s _; rfl
  | cons a l ih =>
    intro s h
    have ha := h a (List.mem_cons_self a l)
    rw [List.foldl_cons, ih _ (fun x hx => h x (List.mem_cons_of_mem a hx))]
    exact pollStep_captures_of_not_release s a (fun hc => ha hc.1)

/-- The key produced by the token loop of parse_hotkey_string is the last
token that matches no modifier alias (or the initial key when there is
none). -/
theorem parseParts_key :
    ∀ (parts : List (List Char)) (mods : Nat) (key : Option (List Char)),
      (parseParts parts mods key).2 =
        ((parts.filter (fun p => !isModToken p)).getLast?).elim key some := by
  intro parts
  induction parts with
  | nil => intro mods key; simp [parseParts]
  | cons p rest ih =>
    intro mods key
    simp only [parseParts]
    split_ifs with h1 h2 h3 h4
    · have hmod : isModToken p = true := by
        simp only [Bool.or_eq_true] at h1
        simp only [isModToken, Bool.or_eq_true]
        tauto
      rw [ih (mods ||| MOD_CONTROL) key, List.filter_cons]
      simp [hmod]
    · have hmod : isModToken p = true := by
        simp only [isModToken, Bool.or_eq_true]
        tauto
      rw [ih (mods ||| MOD_ALT) key, List.filter_cons]
      simp [hmod]
    · have hmod : isModToken p = true := by
        simp only [isModToken, Bool.or_eq_true]
        tauto
      rw [ih (mods ||| MOD_SHIFT) key, List.filter_cons]
      simp [hmod]
    · have hmod : isModToken p = true := by
        simp only [Bool.or_eq_true] at h4
        simp only [isModToken, Bool.or_eq_true]
        tauto
      rw [ih (mods ||| MOD_WIN) key, List.filter_cons]
      simp [hmod]
    · have hmod : isModToken p = false := by
        cases hb : isModToken p
        · rfl
        · exfalso
          simp only [Bool.or_eq_true] at h1 h4
          simp only [isModToken, Bool.or_eq_true] at hb
          tauto
      rw [ih mods (some p), List.filter_cons]
      simp only [hmod, Bool.not_false, if_true]
      cases hgl : rest.filter (fun q => !isModToken q) with
      | nil => simp
      | cons q l =>
        rw [List.getLast?_cons_cons]
        have hex : ∃ a, (q :: l).getLast? = some a := by
          cases hx : (q :: l).getLast? with
          | none => rw [List.getLast?_eq_none_iff] at hx; simp at hx
          | some a => exact ⟨a, rfl⟩
        obtain ⟨a, ha⟩ := hex
        rw [ha]
        rfl

/-! ### Claim theorems -/

/-- Claim C1: for every Register command whose binding map contains a
failing entry (unknown action, parse failure, or OS-level RegisterHotKey
rejection), processing the command leaves registered_ids empty, leaves no
binding registered with the OS (neither those subscribed during this call
nor the previously active set), and the response slot receives a Failed
result naming the first offending action in map iteration order (the entry
found by find?). -/
theorem register_failure_rolls_back_registered_set
    (accept : Nat → Nat → Nat → Bool) (hotmap : List (String × String))
    (s : RegState) (e : String × String)
    (hinv : ∀ x ∈ s.osHotkeys, x.1 ∈ s.registeredIds)
    (hfind : hotmap.find? (entryFails accept) = some e) :
    (processRegister accept hotmap s).1.registeredIds = [] ∧
    (processRegister accept hotmap s).1.osHotkeys = [] ∧
    ∃ msg, (processRegister accept hotmap s).2 = RegResp.failed e.1 msg := by
  rcases processRegister_cases accept hotmap s hinv with ⟨hnone, _⟩ | ⟨e2, msg, hfind2, heq⟩
  · rw [hfind] at hnone; cases hnone
  · rw [hfind] at hfind2
    injection hfind2 with he
    subst he
    rw [heq]
    exact ⟨rfl, rfl, msg, rfl⟩

theorem register_failure_rolls_back_registered_set_witness :
    (processRegister (fun _ _ _ => true)
        [(("create"), ("Ctrl+Alt+C")), (("toggle"), ("Ctrl+Alt+T")),
         (("bogus"), ("Ctrl+X")), (("delete"), ("Ctrl+Alt+D"))]
        initRegState).1.registeredIds = [] ∧
    (processRegister (fun _ _ _ => true)
        [(("create"), ("Ctrl+Alt+C")), (("toggle"), ("Ctrl+Alt+T")),
         (("bogus"), ("Ctrl+X")), (("delete"), ("Ctrl+Alt+D"))]
        initRegState).1.osHotkeys = [] ∧
    ∃ msg, (processRegister (fun _ _ _ => true)
        [(("create"), ("Ctrl+Alt+C")), (("toggle"), ("Ctrl+Alt+T")),
         (("bogus"), ("Ctrl+X")), (("delete"), ("Ctrl+Alt+D"))]
        initRegState).2 = RegResp.failed ("bogus") msg :=
  register_failure_rolls_back_registered_set (fun _ _ _ => true)
    [(("create"), ("Ctrl+Alt+C")), (("toggle"), ("Ctrl+Alt+T")),
     (("bogus"), ("Ctrl+X")), (("delete"), ("Ctrl+Alt+D"))]
    initRegState (("bogus"), ("Ctrl+X")) (by decide) (by decide)

/-- Claim C9: after two consecutive Register commands that both succeed,
the Registered Set (thread list and OS table alike) holds exactly the
resolved pairs of the second map; nothing of the first map survives. -/
theorem second_register_replaces_first
    (acceptA acceptB : Nat → Nat → Nat → Bool)
    (mapA mapB : List (String × String)) (s : RegState)
    (hinv : ∀ x ∈ s.osHotkeys, x.1 ∈ s.registeredIds)
    (hA : (processRegister acceptA mapA s).2 = RegResp.ok)
    (hB : (processRegister acceptB mapB (processRegister acceptA mapA s).1).2 =
      RegResp.ok) :
    (processRegister acceptB mapB (processRegister acceptA mapA s).1).1.osHotkeys =
      mapB.filterMap resolveEntry ∧
    (processRegister acceptB mapB (processRegister acceptA mapA s).1).1.registeredIds =
      (mapB.filterMap resolveEntry).map (fun x => x.1) := by
  have hinv2 := processRegister_inv acceptA mapA s hinv
  rcases processRegister_cases acceptB mapB _ hinv2 with ⟨_, heq⟩ | ⟨e, msg, _, heq⟩
  · rw [heq]; exact ⟨rfl, rfl⟩
  · rw [heq] at hB; cases hB

theorem second_register_replaces_first_witness :
    (processRegister (fun _ _ _ => true) [(("toggle"), ("Ctrl+Alt+T"))]
        (processRegister (fun _ _ _ => true) [(("create"), ("Ctrl+Alt+C"))]
          initRegState).1).1.osHotkeys =
      List.filterMap resolveEntry [(("toggle"), ("Ctrl+Alt+T"))] ∧
    (processRegister (fun _ _ _ => true) [(("toggle"), ("Ctrl+Alt+T"))]
        (processRegister (fun _ _ _ => true) [(("create"), ("Ctrl+Alt+C"))]
          initRegState).1).1.registeredIds =
      (List.filterMap resolveEntry [(("toggle"), ("Ctrl+Alt+T"))]).map (fun x => x.1) :=
  second_register_replaces_first (fun _ _ _ => true) (fun _ _ _ => true)
    [(("create"), ("Ctrl+Alt+C"))] [(("toggle"), ("Ctrl+Alt+T"))]
    initRegState (by decide) (by decide) (by decide)

/-- Claim C8: draining a command queue that ends in a Stop command, after
any list of preceding Register commands, always empties registered_ids and
the OS table, puts the ("stopped",) acknowledgement on the stop response
slot (it is the last response produced), and terminates the thread loop. -/
theorem stop_clears_registrations_and_terminates :
    ∀ (cs : List HkCmd) (s : RegState),
      (∀ c ∈ cs, c ≠ HkCmd.stop) →
      (∀ x ∈ s.osHotkeys, x.1 ∈ s.registeredIds) →
      (drainCmds (cs ++ [HkCmd.stop]) s).1.registeredIds = [] ∧
      (drainCmds (cs ++ [HkCmd.stop]) s).1.osHotkeys = [] ∧
      (drainCmds (cs ++ [HkCmd.stop]) s).2.2 = true ∧
      (drainCmds (cs ++ [HkCmd.stop]) s).2.1.getLast? = some RegResp.stopped := by
  intro cs
  induction cs with
  | nil =>
    intro s _ hinv
    have h0 : unregisterAll s = initRegState := unregisterAll_of_inv s hinv
    refine ⟨rfl, ?_, rfl, rfl⟩
    show (unregisterAll s).osHotkeys = []
    rw [h0]
    rfl
  | cons c rest ih =>
    intro s hcs hinv
    cases c with
    | stop => exact absurd rfl (hcs HkCmd.stop (List.mem_cons_self _ _))
    | register a m =>
      have hinv2 := processRegister_inv a m s hinv
      obtain ⟨H1, H2, H3, H4⟩ :=
        ih (processRegister a m s).1 (fun c hc => hcs c (List.mem_cons_of_mem _ hc)) hinv2
      simp only [List.cons_append, drainCmds]
      refine ⟨H1, H2, H3, ?_⟩
      cases hrs : (drainCmds (rest ++ [HkCmd.stop]) (processRegister a m s).1).2.1 with
      | nil => rw [hrs] at H4; cases H4
      | cons r2 rs2 =>
        rw [hrs] at H4
        rw [List.getLast?_cons_cons]
        exact H4

theorem stop_clears_registrations_and_terminates_witness :
    (drainCmds ([HkCmd.register (fun _ _ _ => true) [(("create"), ("Ctrl+Alt+C"))]] ++
        [HkCmd.stop]) initRegState).1.registeredIds = [] ∧
    (drainCmds ([HkCmd.register (fun _ _ _ => true) [(("create"), ("Ctrl+Alt+C"))]] ++
        [HkCmd.stop]) initRegState).1.osHotkeys = [] ∧
    (drainCmds ([HkCmd.register (fun _ _ _ => true) [(("create"), ("Ctrl+Alt+C"))]] ++
        [HkCmd.stop]) initRegState).2.2 = true ∧
    (drainCmds ([HkCmd.register (fun _ _ _ => true) [(("create"), ("Ctrl+Alt+C"))]] ++
        [HkCmd.stop]) initRegState).2.1.getLast? = some RegResp.stopped :=
  stop_clears_registrations_and_terminates
    [HkCmd.register (fun _ _ _ => true) [(("create"), ("Ctrl+Alt+C"))]]
    initRegState
    (by intro c hc; rw [List.mem_singleton] at hc; subst hc; intro h; cases h)
    (by decide)

/-- Claim C2: while a capture session is open the shared suppression flag
is set (spec-modelled: the HotkeysDialog code that sets it is elided from
the source), and check_queue then drops every ("hotkey", id) event, so no
action is dispatched during the session; the second part shows the same
events do dispatch when no session is open, so the suppression is what
drops them. -/
theorem capture_session_suppresses_fired_events :
    (∀ events : List HkEvent, check_queue recordingFlagDuringSession events = []) ∧
    (∀ id : Nat, handleQueueItem false (HkEvent.hotkey id) = some id) := by
  constructor
  · intro events
    induction events with
    | nil => rfl
    | cons e l ih =>
      cases e with
      | hotkey id =>
        simpa [check_queue, List.filterMap_cons, handleQueueItem,
          recordingFlagDuringSession] using ih
      | error msg =>
        simpa [check_queue, List.filterMap_cons, handleQueueItem] using ih
  · intro id
    rfl

/-- Claim C3 counterexample: when GetMessageW reports an error (returns
-1), the hotkey thread loop is NOT exited — the exit flag of the handler is
false, because the code executes continue after queueing the error event
(source lines 520-525). -/
theorem getmessage_error_does_not_exit_loop :
    (handleGetMessage GetMsgResult.err).2 = false := rfl

/-- Claim C3 amended: when GetMessageW reports an error the Registry puts
the ("error", message) fault event on the event queue and continues its
loop (it is not exited, and nothing restarts it from within); only a
WM_QUIT result exits the loop from inside. -/
theorem getmessage_error_reports_and_continues :
    handleGetMessage GetMsgResult.err =
      ([HkEvent.error ("GetMessageW returned -1 in hotkey thread")], false) ∧
    (handleGetMessage GetMsgResult.quit).2 = true := ⟨rfl, rfl⟩

/-- Claim C4 counterexample: the round trip Parse(Format(b)) = b fails for
the binding (mods 0, vk 0x6B = VK_ADD, the numpad plus key): formatting
renders chr(0x6B).upper() = K, which re-parses to 0x4B. -/
theorem parse_format_roundtrip_counterexample :
    parse_hotkey_string (hotkey_to_string 0 107) = Except.ok (0, 75) ∧
    parse_hotkey_string (hotkey_to_string 0 107) ≠ Except.ok (0, 107) := by decide

set_option maxRecDepth 10000 in
/-- Claim C4 amended: for every modifier mask over Ctrl/Alt/Shift/Win
(mods < 16) and every key code that is a named key, a function key
F1-F24, an ASCII digit or an uppercase letter, parsing the formatted text
yields the original binding: parse_hotkey_string (hotkey_to_string mods vk)
= (mods, vk).  (For other printable codes, such as 0x6B, the round trip
changes the key code.) -/
theorem parse_format_roundtrip_on_canonical_keys :
    ∀ mods < 16, ∀ vk ∈ goodKeyCodes,
      parse_hotkey_string (hotkey_to_string mods vk) = Except.ok (mods, vk) := by
  decide

theorem parse_format_roundtrip_on_canonical_keys_witness :
    parse_hotkey_string (hotkey_to_string 3 67) = Except.ok (3, 67) :=
  parse_format_roundtrip_on_canonical_keys 3 (by decide) 67 (by decide)

/-- Claim C10: when the combo text holds more than one non-modifier token,
parse_hotkey_string does not fail: the token loop keeps only the last
non-modifier token as the key (first conjunct, over the embedded loop), so
Ctrl+A+B parses exactly like Ctrl+B, to (MOD_CONTROL, ord B). -/
theorem parse_uses_last_non_modifier_token :
    (∀ (parts : List (List Char)) (mods : Nat) (key : Option (List Char))
        (k : List Char),
        (parts.filter (fun p => !isModToken p)).getLast? = some k →
        (parseParts parts mods key).2 = some k) ∧
    parse_hotkey_string ("Ctrl+A+B") = parse_hotkey_string ("Ctrl+B") ∧
    parse_hotkey_string ("Ctrl+A+B") = Except.ok (MOD_CONTROL, 66) := by
  refine ⟨?_, by decide, by decide⟩
  intro parts mods key k hk
  rw [parseParts_key, hk]
  rfl

theorem parse_uses_last_non_modifier_token_witness :
    (parseParts [("Ctrl").data, ("A").data, ("B").data] 0 none).2 =
      some (("B").data) :=
  parse_uses_last_non_modifier_token.1 [("Ctrl").data, ("A").data, ("B").data]
    0 none (("B").data) (by decide)

/-- Claim C5: in a capture session a combo is committed only on a full
press-then-release cycle of a non-modifier key.  First conjunct: any poll
iteration that is not a release transition leaves the committed list
unchanged.  Second conjunct: a release transition after a recorded press
commits the key recorded at press time with the modifier mask recorded at
press time (s.lastMods), not the mask of the release sample.  Third
conjunct: while the key stays down in every sample (never released), no
commit ever happens.  Fourth conjunct: a concrete pressed-never-released
session commits nothing. -/
theorem capture_commit_only_on_press_release :
    (∀ (s : CapState) (samp : CapSample),
        ¬(samp.keys = [] ∧ s.prevNonMod ≠ []) →
        (pollStep s samp).captures = s.captures) ∧
    (∀ (s : CapState) (samp : CapSample) (v : Nat),
        samp.keys = [] → s.prevNonMod ≠ [] → s.pressedNonMod = true →
        s.lastVk = some v → v ≠ 0 →
        (pollStep s samp).captures = commit_capture s.captures v s.lastMods) ∧
    (∀ (samples : List CapSample) (s : CapState),
        (∀ x ∈ samples, x.keys ≠ []) →
        (samples.foldl pollStep s).captures = s.captures) ∧
    (runCapture [⟨2, [65]⟩, ⟨2, [65]⟩, ⟨2, [65]⟩]).captures = [] := by
  refine ⟨pollStep_captures_of_not_release, ?_, foldl_captures_of_keys_down, by decide⟩
  intro s samp v hk hprev hpressed hv hv0
  unfold pollStep
  rw [if_neg (fun hc => hc.1 hk), if_pos ⟨hk, hprev⟩]
  show (match s.lastVk with
    | some v =>
      if s.pressedNonMod ∧ v ≠ 0 then commit_capture s.captures v s.lastMods
      else s.captures
    | none => s.captures) = commit_capture s.captures v s.lastMods
  rw [hv]
  simp [hpressed, hv0]

theorem capture_commit_only_on_press_release_witness :
    (pollStep ⟨["X"], some 65, 2, true, [65]⟩ ⟨0, []⟩).captures =
      commit_capture ["X"] 65 2 :=
  capture_commit_only_on_press_release.2.1 ⟨["X"], some 65, 2, true, [65]⟩
    ⟨0, []⟩ 65 rfl (by decide) rfl rfl (by decide)

/-- Claim C6 counterexample: a capture session that ends with no commits
returns None (source line 679: return captures if captures else None), not
the empty list the claim promises. -/
theorem capture_empty_session_returns_none :
    capture_hotkey_dialog [] = none ∧ capture_hotkey_dialog [] ≠ some [] := by
  decide

/-- Claim C6 amended: a capture session returns the list of combos
committed during the session when at least one commit happened — the
returned list is exactly the committed list, never empty, and may contain
more than one entry (second conjunct) — and returns None when the session
ends with no commits. -/
theorem capture_session_returns_committed_list :
    (∀ (samples : List CapSample) (l : List String),
        capture_hotkey_dialog samples = some l →
        l ≠ [] ∧ l = (runCapture samples).captures) ∧
    capture_hotkey_dialog [⟨2, [65]⟩, ⟨2, []⟩, ⟨0, [66]⟩, ⟨0, []⟩] =
      some [("Ctrl+A"), ("B")] := by
  refine ⟨?_, by decide⟩
  intro samples l h
  simp only [capture_hotkey_dialog] at h
  by_cases hc : (runCapture samples).captures = []
  · rw [if_pos hc] at h
    exact Option.noConfusion h
  · rw [if_neg hc] at h
    injection h with h2
    subst h2
    exact ⟨hc, rfl⟩

theorem capture_session_returns_committed_list_witness :
    ([("Ctrl+A"), ("B")] : List String) ≠ [] ∧
    ([("Ctrl+A"), ("B")] : List String) =
      (runCapture [⟨2, [65]⟩, ⟨2, []⟩, ⟨0, [66]⟩, ⟨0, []⟩]).captures :=
  capture_session_returns_committed_list.1
    [⟨2, [65]⟩, ⟨2, []⟩, ⟨0, [66]⟩, ⟨0, []⟩] [("Ctrl+A"), ("B")] (by decide)

/-- Claim C7: commit_capture appends the rendered combo exactly when it
differs from the immediately preceding committed combo (first two
conjuncts, both directions); a rapid double press/release of the same key
with the same modifiers commits one entry (third conjunct), while the same
combo separated by a different intervening commit is appended again
(fourth conjunct). -/
theorem capture_dedup_consecutive_commits :
    (∀ (caps : List String) (vk mods : Nat),
        caps.getLast? ≠ some (hotkey_to_string mods vk) →
        commit_capture caps vk mods = caps ++ [hotkey_to_string mods vk]) ∧
    (∀ (caps : List String) (vk mods : Nat),
        caps.getLast? = some (hotkey_to_string mods vk) →
        commit_capture caps vk mods = caps) ∧
    (runCapture [⟨0, [65]⟩, ⟨0, []⟩, ⟨0, [65]⟩, ⟨0, []⟩]).captures = [("A")] ∧
    (runCapture [⟨0, [65]⟩, ⟨0, []⟩, ⟨0, [66]⟩, ⟨0, []⟩, ⟨0, [65]⟩, ⟨0, []⟩]).captures =
      [("A"), ("B"), ("A")] := by
  refine ⟨?_, ?_, by decide, by decide⟩
  · intro caps vk mods h
    simp only [commit_capture]
    rw [if_pos (Or.inr h)]
  · intro caps vk mods h
    simp only [commit_capture]
    rw [if_neg]
    intro hc
    rcases hc with hc | hc
    · rw [hc] at h
      exact Option.noConfusion h
    · exact hc h

theorem capture_dedup_consecutive_commits_witness :
    commit_capture [("A")] 66 0 = [("A")] ++ [hotkey_to_string 0 66] :=
  capture_dedup_consecutive_commits.1 [("A")] 66 0 (by decide)
